import Mathlib

/-!
# Verification of the persistent-team agent-memory framework

A shallow embedding of the Python `agent_framework` package
(`agent.py`, `team_factory.py`) and the phase-gated pipeline base in
`jobs/refactorer/agent.py`, together with proofs about the memory
lifecycle: bounded lesson storage, recall filtering, experience reset,
team cloning and dependency gating.

JSON/Python values are modelled by the inductive `PyVal`; dictionaries
are insertion-ordered association lists, matching Python dict
semantics.  Fallible operations (those that can raise in Python)
return `Option`.
-/

namespace PersistentTeam

/-- A Python/JSON value.  Booleans, ints and floats are kept as distinct
constructors because `isinstance` distinguishes them (and, crucially,
`isinstance(True, int)` holds in Python).  Float payloads are modelled
as rationals; no claim performs float arithmetic. -/
inductive PyVal : Type where
  | none
  | bool (b : Bool)
  | int (n : Int)
  | float (q : Rat)
  | str (s : String)
  | list (xs : List PyVal)
  | dict (entries : List (String × PyVal))
  deriving Repr

/-- A Python dict: insertion-ordered association list with string keys. -/
abbrev PyDict := List (String × PyVal)

/-- `d[k]` lookup: first entry with key `k` (Python dicts have unique keys). -/
def dictGet (d : PyDict) (k : String) : Option PyVal :=
  match d with
  | [] => Option.none
  | (k', v) :: rest => if k' = k then some v else dictGet rest k

/-- `d.get(k, default)`. -/
def dictGetD (d : PyDict) (k : String) (dflt : PyVal) : PyVal :=
  (dictGet d k).getD dflt

/-- `k in d`. -/
def hasKey (d : PyDict) (k : String) : Bool :=
  (dictGet d k).isSome

/-- `d[k] = v`: update in place if the key exists, else append at the end
(Python dict insertion-order semantics). -/
def dictSet (d : PyDict) (k : String) (v : PyVal) : PyDict :=
  match d with
  | [] => [(k, v)]
  | (k', v') :: rest => if k' = k then (k, v) :: rest else (k', v') :: dictSet rest k v

/-- The key list of a dict, in insertion order. -/
def dictKeys (d : PyDict) : List String := d.map (·.1)

/-- Python truthiness (`bool(v)`). -/
def PyVal.truthy : PyVal → Bool
  | .none => false
  | .bool b => b
  | .int n => n != 0
  | .float q => q != 0
  | .str s => s != ""
  | .list xs => !xs.isEmpty
  | .dict d => !d.isEmpty

/-- `isinstance(v, (int, float))` — true also for `bool`, a subclass of `int`. -/
def PyVal.isNumeric : PyVal → Bool
  | .bool _ => true
  | .int _ => true
  | .float _ => true
  | _ => false

/-- The numeric value of an int-like or float value, if any
(`True` counts as `1`, `False` as `0`). -/
def PyVal.asNum : PyVal → Option Rat
  | .bool b => some (if b then 1 else 0)
  | .int n => some (n : Rat)
  | .float q => some q
  | _ => Option.none

mutual
/-- Python `==`: numeric kinds compare by value, strings by content,
lists elementwise, dicts as key→value maps (length plus key-wise
comparison, order-insensitive). -/
def pyEq : PyVal → PyVal → Bool
  | .none, .none => true
  | .str s, .str t => s == t
  | .list xs, .list ys => pyEqList xs ys
  | .dict d, .dict e => d.length == e.length && pyDictSub d e
  | a, b =>
      match a.asNum, b.asNum with
      | some x, some y => x == y
      | _, _ => false

/-- Elementwise Python `==` on lists. -/
def pyEqList : List PyVal → List PyVal → Bool
  | [], [] => true
  | x :: xs, y :: ys => pyEq x y && pyEqList xs ys
  | _, _ => false

/-- Every entry of the first dict has a `==`-equal value at the same key
in the second. -/
def pyDictSub : List (String × PyVal) → List (String × PyVal) → Bool
  | [], _ => true
  | (k, v) :: rest, e => pyLookupEq k v e && pyDictSub rest e

/-- Some entry of the dict has key `k` and a value `==`-equal to `v`
(first occurrence of `k` decides, as in `e[k]`). -/
def pyLookupEq (k : String) (v : PyVal) : List (String × PyVal) → Bool
  | [] => false
  | (k', w) :: rest => if k' == k then pyEq v w else pyLookupEq k v rest
end

/-- `isinstance(v, dict)`-shaped test, used to model iteration that calls
`.get` on every element. -/
def PyVal.isDict : PyVal → Bool
  | .dict _ => true
  | _ => false

/-- `l.get(k)` on a lesson dict (default `None`); only ever applied under
an `isDict` guard, the non-dict value is junk. -/
def lessonGet (l : PyVal) (k : String) : PyVal :=
  match l with
  | .dict d => dictGetD d k PyVal.none
  | _ => PyVal.none

/-- `v.get(k, default)` — raises (`Option.none`) when `v` is not a dict. -/
def pyGetD : PyVal → String → PyVal → Option PyVal
  | .dict d, k, dflt => some (dictGetD d k dflt)
  | _, _, _ => Option.none

/-- `v[k]` subscript on a value — `Option.none` on a missing key or a
non-dict value (KeyError / TypeError). -/
def pyItem : PyVal → String → Option PyVal
  | .dict d, k => dictGet d k
  | _, _ => Option.none

/-- `d.update(values)` for a dict argument: assign each pair in order. -/
def dictUpdate (d : PyDict) : List (String × PyVal) → PyDict
  | [] => d
  | (k, v) :: rest => dictUpdate (dictSet d k v) rest

/-- The last `n` elements of a list (all of it when `n ≥ length`);
the meaning of the Python slice `xs[-n:]` for `n ≥ 1`. -/
def takeLast (n : Nat) (xs : List PyVal) : List PyVal :=
  xs.drop (xs.length - n)

/-- Python `xs[-m:]` for an arbitrary integer `m`
(note `xs[-0:]` is `xs[0:]`, the whole list). -/
def pySliceLast (xs : List PyVal) (m : Int) : List PyVal :=
  if 0 < m then xs.drop ((xs.length : Int) - m).toNat else xs.drop ((-m).toNat)

/-- A value usable as a slice index: `int` or `bool` (a subclass of
`int`); a `float` index raises TypeError. -/
def intIndex : PyVal → Option Int
  | .int n => some n
  | .bool b => some (if b then 1 else 0)
  | _ => Option.none

/-- Python `v + 1` (TypeError for non-numeric `v`). -/
def pyAddOne : PyVal → Option PyVal
  | .int n => some (.int (n + 1))
  | .bool b => some (.int ((if b then 1 else 0) + 1))
  | .float q => some (.float (q + 1))
  | _ => Option.none

/-! ## `agent_framework/agent.py` — the `Agent` base class

The in-process state of a bound agent: `config` and `experience` are the
live references into the team document, `runLessons` is the `_run_lessons`
buffer of the current invocation, `engine` the label given at `__init__`. -/

structure AgentRT where
  engine : PyVal
  config : PyDict
  experience : PyDict
  runLessons : List PyVal

/-- `Agent.recall(category=None)`:
reads `experience.get("lessons_learned", [])`; a truthy `category`
filters by `l.get("category") == category`, otherwise the stored value
is returned as is.  `Option.none` models the AttributeError raised when
the filter iterates a non-list or a non-dict lesson. -/
def Agent.recall (experience : PyDict) (category : PyVal) : Option PyVal :=
  let lessons := dictGetD experience "lessons_learned" (.list [])
  if category.truthy then
    match lessons with
    | .list ls =>
        if ls.all PyVal.isDict then
          some (.list (ls.filter fun l => pyEq (lessonGet l "category") category))
        else Option.none
    | _ => Option.none
  else some lessons

/-- `Agent.learn(category, problem, solution, context=None, engine=None)`:
appends one lesson dict to the invocation buffer.  `timestamp` stands for
`datetime.now().isoformat()`. -/
def learn (a : AgentRT) (timestamp : String)
    (category problem solution context engineArg : PyVal) : AgentRT :=
  let lesson0 : PyDict :=
    [("timestamp", .str timestamp), ("category", category),
     ("problem", problem), ("solution", solution)]
  let lesson1 := match context with
    | .none => lesson0
    | c => dictSet lesson0 "context" c
  let eff := if engineArg.truthy then engineArg else a.engine
  let lesson2 := if eff.truthy then dictSet lesson1 "engine" eff else lesson1
  { a with runLessons := a.runLessons ++ [PyVal.dict lesson2] }

/-- `Agent.save_state()`:
ensures `lessons_learned` exists, extends it with the run buffer, trims
with `lessons[-max_lessons:]` when the length exceeds
`config.get("max_lessons", 100)`, and increments
`experience.get("run_count", 0)` by one.  The buffer is NOT cleared.
`Option.none` models the exceptions raised on a non-list
`lessons_learned`, a non-numeric `max_lessons` (or a `float` one used as
a slice index), or a non-numeric `run_count`. -/
def save_state (a : AgentRT) : Option AgentRT :=
  let exp0 := if hasKey a.experience "lessons_learned" then a.experience
              else dictSet a.experience "lessons_learned" (.list [])
  match dictGetD exp0 "lessons_learned" PyVal.none with
  | .list stored =>
      let lessons := stored ++ a.runLessons
      let mv := dictGetD a.config "max_lessons" (.int 100)
      match mv.asNum with
      | some q =>
          let trimmed? : Option (List PyVal) :=
            if (lessons.length : Rat) > q then
              match intIndex mv with
              | some m => some (pySliceLast lessons m)
              | Option.none => Option.none
            else some lessons
          match trimmed? with
          | some trimmed =>
              let exp1 := dictSet exp0 "lessons_learned" (.list trimmed)
              match pyAddOne (dictGetD exp1 "run_count" (.int 0)) with
              | some rc => some { a with experience := dictSet exp1 "run_count" rc }
              | Option.none => Option.none
          | Option.none => Option.none
      | Option.none => Option.none
  | _ => Option.none

/-- One full worker invocation for the bounded-memory property: a fresh
agent (empty buffer) is bound to `exp`, buffers `buffered` lessons via
`learn`, and calls `save_state` exactly once; yields the experience
written back. -/
def invocation (config : PyDict) (exp : PyDict) (buffered : List PyVal) :
    Option PyDict :=
  (save_state { engine := PyVal.none, config := config, experience := exp,
                runLessons := buffered }).map (·.experience)

/-- A sequence of invocations, each saving once, threading the persisted
experience from one to the next. -/
def runInvocations (config : PyDict) (exp : PyDict) :
    List (List PyVal) → Option PyDict
  | [] => some exp
  | buf :: rest =>
      match invocation config exp buf with
      | some e => runInvocations config e rest
      | _ => Option.none

/-! ## `agent_framework/team_factory.py` -/

/-- The per-key reset rule of `_reset_experience`, in the source's branch
order: `lessons_learned` → `[]`; `format_priority` preserved; lists →
`[]`; dicts → zero-filled when all values are numeric (which includes
booleans, `isinstance(True, int)`), else `{}`; int/float/bool scalars →
`0`; `None` → `None`; anything else (strings) → `""`. -/
def resetValue (key : String) (v : PyVal) : PyVal :=
  if key = "lessons_learned" then .list []
  else if key = "format_priority" then v
  else match v with
    | .list _ => .list []
    | .dict kvs =>
        if kvs.all (fun kv => kv.2.isNumeric) then
          .dict (kvs.map fun kv => (kv.1, PyVal.int 0))
        else .dict []
    | .bool _ => .int 0
    | .int _ => .int 0
    | .float _ => .int 0
    | .none => .none
    | .str _ => .str ""

/-- The in-place loop `for key, value in exp.items(): ...` of
`_reset_experience`: every value replaced by its reset, keys and order
untouched. -/
def resetExperience (exp : PyDict) : PyDict :=
  exp.map fun kv => (kv.1, resetValue kv.1 kv.2)

/-- Reset one agent record: `agent["experience"]` must exist and be a
dict (else `.items()` raises); it is replaced by its reset. -/
def resetAgent (agent : PyVal) : Option PyVal :=
  match agent with
  | .dict fields =>
      match dictGet fields "experience" with
      | some (.dict exp) =>
          some (.dict (dictSet fields "experience" (.dict (resetExperience exp))))
      | _ => Option.none
  | _ => Option.none

/-- Reset every value of the `agents` mapping in order. -/
def resetAgents : List (String × PyVal) → Option (List (String × PyVal))
  | [] => some []
  | (k, v) :: rest => do
      let v' ← resetAgent v
      let rest' ← resetAgents rest
      pure ((k, v') :: rest')

/-- `_reset_experience(team)`: resets each entry of `team["agents"]`. -/
def resetTeamExperience (team : PyDict) : Option PyDict :=
  match dictGet team "agents" with
  | some (.dict agents) => do
      let agents' ← resetAgents agents
      pure (dictSet team "agents" (.dict agents'))
  | _ => Option.none

/-- One override entry applied to an agent record
(`for section, values in overrides.items()`): when the section exists
and is a dict, `agent[section].update(values)` (requiring `values` to be
a mapping), otherwise `agent[section] = values`. -/
def applyOverride (agent : PyDict) : List (String × PyVal) → Option PyDict
  | [] => some agent
  | (sectionName, values) :: rest => do
      let agent' ←
        match dictGet agent sectionName with
        | some (.dict sec) =>
            match values with
            | .dict vs => some (dictSet agent sectionName (.dict (dictUpdate sec vs)))
            | _ => Option.none
        | _ => some (dictSet agent sectionName values)
      applyOverride agent' rest

/-- The `agent_overrides` loop of `create_team`: entries naming agents
absent from `team["agents"]` are skipped; a named agent record and its
overrides must both be dicts. -/
def applyOverrides (team : PyDict) : List (String × PyVal) → Option PyDict
  | [] => some team
  | (name, overrides) :: rest => do
      let team' ←
        match dictGet team "agents" with
        | some (.dict agents) =>
            match dictGet agents name with
            | some (.dict agd) =>
                match overrides with
                | .dict ovs => do
                    let agd' ← applyOverride agd ovs
                    pure (dictSet team "agents" (.dict (dictSet agents name (.dict agd'))))
                | _ => Option.none
            | some _ => Option.none
            | Option.none => some team
        | _ => Option.none
      applyOverrides team' rest

/-- `create_team(source_team, project_id, project_meta, agent_overrides)`.
`today` stands for `datetime.now().strftime("%Y-%m-%d")`; `output_path`
file IO is out of scope.  A `None`/empty `project_meta` or
`agent_overrides` is the empty list (the `if project_meta:` guards skip
an empty mapping, which applying an empty list also does).

Note the source line
`new_team["project_id"] = project_id if "project_id" in new_team else None`:
when the source team has no `project_id` key, the key is created with
value `None`, not with the given project id. -/
def create_team (source_team : PyDict) (project_id : String) (today : String)
    (project_meta : PyDict) (agent_overrides : List (String × PyVal)) :
    Option PyDict := do
  let t1 := dictSet source_team "project_id"
              (if hasKey source_team "project_id" then .str project_id else PyVal.none)
  let t2 := if hasKey t1 "city" then dictSet t1 "city" (.str project_id) else t1
  let t3 := dictSet t2 "created" (.str today)
  let t4 := dictUpdate t3 project_meta
  let t5 ← applyOverrides t4 agent_overrides
  resetTeamExperience t5

/-! ## `jobs/refactorer/agent.py` — phase-gated pipeline workers -/

/-- `RefactorerBase._check_dependency()`: `some true` = proceed,
`some false` = blocked.  A falsy `depends_on` (absent, `None`, `""`)
short-circuits before `self.team["agents"]` is touched; a truthy name
present in `agents` requires that worker's `experience.get("status")`
to `==` the string `"complete"`.  A truthy non-string value can never be
a key of the string-keyed mapping, so it passes. -/
def checkDependency (team : PyDict) (config : PyDict) : Option Bool :=
  let dep := dictGetD config "depends_on" PyVal.none
  if dep.truthy then
    match dictGet team "agents" with
    | some (.dict agents) =>
        match dep with
        | .str d =>
            match dictGet agents d with
            | some (.dict agd) =>
                (match dictGet agd "experience" with
                 | some (.dict e) =>
                     some (pyEq (dictGetD e "status" PyVal.none) (.str "complete"))
                 | _ => Option.none)
            | some _ => Option.none
            | Option.none => some true
        | _ => some true
    | _ => Option.none
  else some true

/-- `RefactorerBase._mark_complete()` (defined in the source but never
called by any `run()`): sets `experience.status` and
`experience.completed_at`. -/
def markComplete (exp : PyDict) (timestamp : String) : PyDict :=
  dictSet (dictSet exp "status" (.str "complete")) "completed_at" (.str timestamp)

/-- The inner filter of `_recall_by_types`: keeps lessons whose
`.get("category")` is `==` to some declared recall type (each lesson
must be a dict for `.get`; set membership is modelled by equality). -/
def filterByCats (rts : List PyVal) : List PyVal → Option (List PyVal)
  | [] => some []
  | l :: ls => do
      let cat ← match l with
                | .dict d => some (dictGetD d "category" PyVal.none)
                | _ => Option.none
      let restL ← filterByCats rts ls
      pure (if rts.any (fun c => pyEq cat c) then l :: restL else restL)

/-- The agent loop of `_recall_by_types`: for each agent record,
`agent_data.get("experience", {}).get("lessons_learned", [])` must chain
through dicts to a list, which is then filtered. -/
def gatherLessons (rts : List PyVal) : List (String × PyVal) → Option (List PyVal)
  | [] => some []
  | (_, agentData) :: rest => do
      let ev ← pyGetD agentData "experience" (.dict [])
      let lv ← pyGetD ev "lessons_learned" (.list [])
      let ls ← match lv with | .list ls => some ls | _ => Option.none
      let keep ← filterByCats rts ls
      let restL ← gatherLessons rts rest
      pure (keep ++ restL)

/-- `RefactorerBase._recall_by_types()`: an empty (or absent)
`config.get("recall_types", [])` returns `[]` before `team["agents"]`
is touched; otherwise every agent's lessons are scanned in order. -/
def recallByTypes (team : PyDict) (config : PyDict) : Option (List PyVal) := do
  let rts ← match dictGetD config "recall_types" (.list []) with
            | .list xs => some xs
            | _ => Option.none
  if rts.isEmpty then pure []
  else
    match dictGet team "agents" with
    | some (.dict agents) => gatherLessons rts agents
    | _ => Option.none

/-- `DbArchitectAgent._apply_experience()`: recalls by types and logs
each relevant lesson; the log line subscripts `lesson['category']` and
slices `lesson['problem'][:80]`, so those must exist (and the problem be
sliceable) or a KeyError/TypeError is raised. -/
def applyExperienceDb (team : PyDict) (config : PyDict) : Option Unit := do
  let relevant ← recallByTypes team config
  if relevant.all (fun l =>
      (pyItem l "category").isSome &&
        (match pyItem l "problem" with
         | some (.str _) => true
         | some (.list _) => true
         | _ => false)) then
    pure ()
  else Option.none

/-- The `db_functions` comprehension of `DbArchitectAgent.run`: entries
of the auditor's `function_index` whose `.get("category")` is one of
`("db", "tracking", "requests")`. -/
def dbFunctionsOf : List (String × PyVal) → Option (List (String × PyVal))
  | [] => some []
  | (k, v) :: rest => do
      let cat ← match v with
                | .dict vd => some (dictGetD vd "category" PyVal.none)
                | _ => Option.none
      let restD ← dbFunctionsOf rest
      pure (if [PyVal.str "db", .str "tracking", .str "requests"].any
                (fun c => pyEq cat c)
            then (k, v) :: restD else restD)

/-- A `run()` outcome: the returned result dict and the team document
after the call (the worker mutates its experience in place). -/
structure RunOutcome where
  result : PyVal
  team : PyDict

/-- `DbArchitectAgent(name, team).run()`:
binding (`__init__`) locates `team["agents"][name]` and its
`role`/`config`/`experience`; a failed dependency check returns the
blocked dict and touches nothing (a failed check implies a truthy
string-valued `depends_on`, interpolated into the reason); otherwise the
auditor's `function_index` is filtered, `save_state()` runs, and the
ready dict is returned with `_recall_by_types()` evaluated on the
updated team. -/
def dbArchitectRun (team : PyDict) (name : String) : Option RunOutcome := do
  let agentsV ← dictGet team "agents"
  let agents ← match agentsV with | .dict a => some a | _ => Option.none
  let stV ← dictGet agents name
  let std ← match stV with | .dict s => some s | _ => Option.none
  let _role ← dictGet std "role"
  let configV ← dictGet std "config"
  let expV ← dictGet std "experience"
  let config ← match configV with | .dict c => some c | _ => Option.none
  let ok ← checkDependency team config
  if ok = false then
    let depV ← dictGet config "depends_on"
    let depName ← match depV with | .str s => some s | _ => Option.none
    pure ⟨.dict [("status", .str "blocked"),
                 ("reason", .str ("depends on " ++ depName))], team⟩
  else do
    let _ ← applyExperienceDb team config
    let auditorExp ← pyGetD (dictGetD agents "auditor" (.dict [])) "experience" (.dict [])
    let fiV ← pyGetD auditorExp "function_index" (.dict [])
    let fidx ← match fiV with | .dict d => some d | _ => Option.none
    let dbFns ← dbFunctionsOf fidx
    let exp ← match expV with | .dict e => some e | _ => Option.none
    let rt ← save_state { engine := PyVal.none, config := config,
                          experience := exp, runLessons := [] }
    let std1 := dictSet std "experience" (.dict rt.experience)
    let agents1 := dictSet agents name (.dict std1)
    let team1 := dictSet team "agents" (.dict agents1)
    let auditorLessons ← recallByTypes team1 config
    pure ⟨.dict [("status", .str "ready"), ("db_functions", .dict dbFns),
                 ("auditor_lessons", .list auditorLessons)], team1⟩

/-! ## Spec-side definition for the experience-reset refinement claim -/

/-- The per-key reset mapping as the spec describes it, amended for
Python's `bool` being a subclass of `int`: sequences → empty; mappings
of all-numeric values (booleans included) → zero-filled with the same
keys; other mappings → empty; numeric scalars and booleans → `0`;
null → null; any other scalar (a string) → `""`; `lessons_learned`
always `[]`; the embedded-universal-knowledge key `format_priority`
exempt. -/
def specResetValue (key : String) (v : PyVal) : PyVal :=
  if key = "format_priority" then v
  else if key = "lessons_learned" then .list []
  else match v with
    | .list _ => .list []
    | .dict kvs =>
        if kvs.all (fun kv => kv.2.isNumeric) then
          .dict (kvs.map fun kv => (kv.1, PyVal.int 0))
        else .dict []
    | .none => .none
    | .str _ => .str ""
    | .bool _ => .int 0
    | .int _ => .int 0
    | .float _ => .int 0

/-! ## Dictionary and suffix lemmas -/

lemma dictGet_dictSet_self (d : PyDict) (k : String) (v : PyVal) :
    dictGet (dictSet d k v) k = some v := by
  induction d with
  | nil => simp [dictSet, dictGet]
  | cons hd tl ih =>
      obtain ⟨k', v'⟩ := hd
      by_cases h : k' = k <;> simp [dictSet, dictGet, h, ih]

lemma dictGet_dictSet_ne (d : PyDict) (k k' : String) (v : PyVal) (h : k' ≠ k) :
    dictGet (dictSet d k v) k' = dictGet d k' := by
  induction d with
  | nil =>
      simp only [dictSet, dictGet]
      rw [if_neg (Ne.symm h)]
  | cons hd tl ih =>
      obtain ⟨k0, v0⟩ := hd
      by_cases h0 : k0 = k
      · subst h0
        simp only [dictSet, if_pos rfl, dictGet]
        rw [if_neg (Ne.symm h), if_neg (Ne.symm h)]
      · simp only [dictSet, if_neg h0, dictGet]
        by_cases h1 : k0 = k'
        · simp [h1]
        · simp [h1, ih]

lemma dictGetD_dictSet_ne (d : PyDict) (k k' : String) (v dflt : PyVal) (h : k' ≠ k) :
    dictGetD (dictSet d k v) k' dflt = dictGetD d k' dflt := by
  simp [dictGetD, dictGet_dictSet_ne _ _ _ _ h]

lemma takeLast_of_le (n : Nat) (xs : List PyVal) (h : xs.length ≤ n) :
    takeLast n xs = xs := by
  simp [takeLast, Nat.sub_eq_zero_of_le h]

lemma length_takeLast (n : Nat) (xs : List PyVal) :
    (takeLast n xs).length = min xs.length n := by
  simp [takeLast]
  omega

/-- Re-trimming after an append is the same as trimming the full
concatenation: the key algebraic fact behind bounded memory. -/
lemma takeLast_idem_append (n : Nat) (xs ys : List PyVal) :
    takeLast n (takeLast n xs ++ ys) = takeLast n (xs ++ ys) := by
  simp only [takeLast, List.length_append, List.length_drop]
  rw [List.drop_append_eq_append_drop, List.drop_append_eq_append_drop, List.drop_drop]
  simp only [List.length_drop]
  congr 1 <;> congr 1 <;> omega

lemma pySliceLast_pos (xs : List PyVal) (m : Int) (h : 0 < m) :
    pySliceLast xs m = takeLast m.toNat xs := by
  simp only [pySliceLast, if_pos h, takeLast]
  congr 1
  omega

/-! ## The save/trim lifecycle -/

/-- Full characterisation of one successful `save_state`: the stored
lessons become the last `M` of `stored ++ buffer`, and `run_count`
increments by one (an absent `run_count` reads as `0`). -/
lemma save_state_eq (eng : PyVal) (cfg exp : PyDict) (buf ls : List PyVal) (M r : Int)
    (hls : dictGet exp "lessons_learned" = some (.list ls))
    (hcfg : dictGetD cfg "max_lessons" (.int 100) = .int M)
    (hM : 1 ≤ M)
    (hrc : dictGetD exp "run_count" (.int 0) = .int r) :
    save_state ⟨eng, cfg, exp, buf⟩ =
      some ⟨eng, cfg,
        dictSet (dictSet exp "lessons_learned" (.list (takeLast M.toNat (ls ++ buf))))
          "run_count" (.int (r + 1)), buf⟩ := by
  have hk : hasKey exp "lessons_learned" = true := by simp [hasKey, hls]
  have h1 : dictGetD exp "lessons_learned" PyVal.none = .list ls := by simp [dictGetD, hls]
  have h2 : dictGetD (dictSet exp "lessons_learned"
      (.list (takeLast M.toNat (ls ++ buf)))) "run_count" (.int 0) = .int r := by
    rw [dictGetD_dictSet_ne _ _ _ _ _ (by decide)]
    exact hrc
  by_cases hlen : (((ls ++ buf).length : Nat) : Rat) > (M : Rat)
  · simp only [save_state, hk, if_true, h1, hcfg, PyVal.asNum, if_pos hlen, intIndex,
      pySliceLast_pos _ _ (by omega : (0:Int) < M), h2, pyAddOne]
  · have hle : (ls ++ buf).length ≤ M.toNat := by
      have : (((ls ++ buf).length : Nat) : Rat) ≤ (M : Rat) := le_of_not_lt hlen
      have h3 : ((ls ++ buf).length : Int) ≤ M := by exact_mod_cast this
      omega
    have h4 : takeLast M.toNat (ls ++ buf) = ls ++ buf := takeLast_of_le _ _ hle
    rw [h4] at h2
    simp only [save_state, hk, if_true, h1, hcfg, PyVal.asNum, if_neg hlen, h4, h2, pyAddOne]

/-- Invariant of a run of invocations: starting from a trimmed store of
`ls`, the persisted lessons are always the last `M` of everything ever
appended, and `run_count` counts the saves. -/
lemma runInvocations_spec (cfg : PyDict) (M : Int) (hM : 1 ≤ M)
    (hcfg : dictGetD cfg "max_lessons" (.int 100) = .int M)
    (invs : List (List PyVal)) :
    ∀ (exp : PyDict) (ls : List PyVal) (r : Int),
      dictGet exp "lessons_learned" = some (.list ls) →
      dictGetD exp "run_count" (.int 0) = .int r →
      ls.length ≤ M.toNat →
      ∃ e, runInvocations cfg exp invs = some e ∧
        dictGet e "lessons_learned" = some (.list (takeLast M.toNat (ls ++ invs.flatten))) ∧
        dictGetD e "run_count" (.int 0) = .int (r + invs.length) := by
  induction invs with
  | nil =>
      intro exp ls r hls hrc hle
      refine ⟨exp, rfl, ?_, by simpa using hrc⟩
      simpa [takeLast_of_le _ _ hle] using hls
  | cons buf rest ih =>
      intro exp ls r hls hrc hle
      have hsave := save_state_eq PyVal.none cfg exp buf ls M r hls hcfg hM hrc
      have hinv : invocation cfg exp buf =
          some (dictSet (dictSet exp "lessons_learned"
            (.list (takeLast M.toNat (ls ++ buf)))) "run_count" (.int (r + 1))) := by
        simp [invocation, hsave]
      have hls1 : dictGet (dictSet (dictSet exp "lessons_learned"
            (.list (takeLast M.toNat (ls ++ buf)))) "run_count" (.int (r + 1)))
          "lessons_learned" = some (.list (takeLast M.toNat (ls ++ buf))) := by
        rw [dictGet_dictSet_ne _ _ _ _ (by decide), dictGet_dictSet_self]
      have hrc1 : dictGetD (dictSet (dictSet exp "lessons_learned"
            (.list (takeLast M.toNat (ls ++ buf)))) "run_count" (.int (r + 1)))
          "run_count" (.int 0) = .int (r + 1) := by
        simp [dictGetD, dictGet_dictSet_self]
      have hle1 : (takeLast M.toNat (ls ++ buf)).length ≤ M.toNat := by
        rw [length_takeLast]; omega
      obtain ⟨e, he, hel, herc⟩ := ih _ _ _ hls1 hrc1 hle1
      refine ⟨e, ?_, ?_, ?_⟩
      · simp [runInvocations, hinv, he]
      · rw [hel, takeLast_idem_append]
        congr 2
        simp
      · rw [herc]
        congr 1
        simp only [List.length_cons]
        push_cast
        ring

/-! ## Claim C1 — bounded memory -/

/-- Claim C1 (amended: for a configured `max_lessons = M ≥ 1`, the
default `100` when the key is absent included).  After each of any
number of single-save invocations, the stored `lessons_learned` is
exactly the suffix of the most recently learned `M` lessons, in
insertion order, of length `min(total learned, M)`.  For `M = 0` the
claim fails: the slice `lessons[-0:]` keeps everything
(see the counterexample). -/
theorem c1_bounded_memory (cfg : PyDict) (M : Int)
    (hM : 1 ≤ M) (hcfg : dictGetD cfg "max_lessons" (.int 100) = .int M)
    (invs : List (List PyVal)) (k : Nat) :
    ∃ e, runInvocations cfg [("lessons_learned", .list [])] (invs.take k) = some e ∧
      dictGet e "lessons_learned" =
        some (.list (takeLast M.toNat ((invs.take k).flatten))) ∧
      (takeLast M.toNat ((invs.take k).flatten)).length =
        min ((invs.take k).flatten).length M.toNat := by
  obtain ⟨e, h1, h2, _⟩ := runInvocations_spec cfg M hM hcfg (invs.take k)
    [("lessons_learned", .list [])] [] 0 rfl rfl (by simp)
  exact ⟨e, h1, by simpa using h2, length_takeLast _ _⟩

/-- Claim C1, counterexample to the claim as stated: with
`max_lessons = 0` one learned lesson is retained (the Python slice
`lessons[-0:]` is the whole list), so the stored length is `1`, not
`min(1, 0) = 0`. -/
theorem c1_counterexample :
    runInvocations [("max_lessons", PyVal.int 0)] [("lessons_learned", PyVal.list [])]
        [[PyVal.dict [("category", PyVal.str "c")]]] =
      some [("lessons_learned", PyVal.list [PyVal.dict [("category", PyVal.str "c")]]),
            ("run_count", PyVal.int 1)] ∧
    (1 : Nat) ≠ min 1 0 := ⟨rfl, by decide⟩

/-- Claim C1, witness: `max_lessons = 2`, two invocations learning one
and two lessons. -/
theorem c1_witness :
    (1 : Int) ≤ 2 ∧
    (∃ e, runInvocations [("max_lessons", PyVal.int 2)] [("lessons_learned", PyVal.list [])]
        ([[PyVal.int 7], [PyVal.int 8, PyVal.int 9]].take 2) = some e ∧
      dictGet e "lessons_learned" =
        some (.list (takeLast (2:Int).toNat (([[PyVal.int 7], [PyVal.int 8, PyVal.int 9]].take 2).flatten))) ∧
      (takeLast (2:Int).toNat (([[PyVal.int 7], [PyVal.int 8, PyVal.int 9]].take 2).flatten)).length =
        min (([[PyVal.int 7], [PyVal.int 8, PyVal.int 9]].take 2).flatten).length (2:Int).toNat) :=
  ⟨by decide, c1_bounded_memory [("max_lessons", PyVal.int 2)] 2 (by decide) rfl
    [[PyVal.int 7], [PyVal.int 8, PyVal.int 9]] 2⟩

/-! ## Claim C8 — run_count increments, double save double-applies -/

/-- Claim C8: one `save_state` leaves `run_count` at prior (absent reads
as `0`) plus one; a second call in the same invocation (buffer not
cleared) yields prior plus two and appends the buffered lessons twice
(up to the usual trim, which is the identity when everything fits in
`max_lessons`). -/
theorem c8_run_count (eng : PyVal) (cfg exp : PyDict) (buf ls : List PyVal) (M r : Int)
    (hls : dictGet exp "lessons_learned" = some (.list ls))
    (hcfg : dictGetD cfg "max_lessons" (.int 100) = .int M) (hM : 1 ≤ M)
    (hrc : dictGetD exp "run_count" (.int 0) = .int r) :
    ∃ a1 a2 : AgentRT,
      save_state ⟨eng, cfg, exp, buf⟩ = some a1 ∧ save_state a1 = some a2 ∧
      dictGetD a1.experience "run_count" (.int 0) = .int (r + 1) ∧
      dictGetD a2.experience "run_count" (.int 0) = .int (r + 2) ∧
      dictGet a1.experience "lessons_learned" = some (.list (takeLast M.toNat (ls ++ buf))) ∧
      dictGet a2.experience "lessons_learned" =
        some (.list (takeLast M.toNat (ls ++ buf ++ buf))) ∧
      (ls.length + buf.length + buf.length ≤ M.toNat →
        dictGet a2.experience "lessons_learned" = some (.list (ls ++ buf ++ buf))) := by
  have h1 := save_state_eq eng cfg exp buf ls M r hls hcfg hM hrc
  have hls1 : dictGet (dictSet (dictSet exp "lessons_learned"
        (.list (takeLast M.toNat (ls ++ buf)))) "run_count" (.int (r + 1)))
      "lessons_learned" = some (.list (takeLast M.toNat (ls ++ buf))) := by
    rw [dictGet_dictSet_ne _ _ _ _ (by decide), dictGet_dictSet_self]
  have hrc1 : dictGetD (dictSet (dictSet exp "lessons_learned"
        (.list (takeLast M.toNat (ls ++ buf)))) "run_count" (.int (r + 1)))
      "run_count" (.int 0) = .int (r + 1) := by
    simp [dictGetD, dictGet_dictSet_self]
  have h2 := save_state_eq eng cfg _ buf _ M (r + 1) hls1 hcfg hM hrc1
  refine ⟨_, _, h1, h2, hrc1, ?_, hls1, ?_, ?_⟩
  · simp [dictGetD, dictGet_dictSet_self]
    ring
  · rw [dictGet_dictSet_ne _ _ _ _ (by decide), dictGet_dictSet_self,
      takeLast_idem_append]
  · intro hlen
    rw [dictGet_dictSet_ne _ _ _ _ (by decide), dictGet_dictSet_self,
      takeLast_idem_append, takeLast_of_le]
    simp only [List.length_append]
    omega

/-- Claim C8, witness: `run_count = 5` goes to `6` then `7`; the single
buffered lesson is stored twice after the double save. -/
theorem c8_witness :
    dictGet [("lessons_learned", PyVal.list []), ("run_count", PyVal.int 5)]
        "lessons_learned" = some (PyVal.list []) ∧
    (∃ a1 a2 : AgentRT,
      save_state ⟨PyVal.none, [("max_lessons", PyVal.int 10)],
        [("lessons_learned", PyVal.list []), ("run_count", PyVal.int 5)],
        [PyVal.str "l"]⟩ = some a1 ∧ save_state a1 = some a2 ∧
      dictGetD a1.experience "run_count" (.int 0) = .int (5 + 1) ∧
      dictGetD a2.experience "run_count" (.int 0) = .int (5 + 2) ∧
      dictGet a1.experience "lessons_learned" =
        some (.list (takeLast (10:Int).toNat ([] ++ [PyVal.str "l"]))) ∧
      dictGet a2.experience "lessons_learned" =
        some (.list (takeLast (10:Int).toNat ([] ++ [PyVal.str "l"] ++ [PyVal.str "l"]))) ∧
      (([] : List PyVal).length + [PyVal.str "l"].length + [PyVal.str "l"].length ≤ (10:Int).toNat →
        dictGet a2.experience "lessons_learned" =
          some (.list ([] ++ [PyVal.str "l"] ++ [PyVal.str "l"])))) :=
  ⟨rfl, c8_run_count PyVal.none [("max_lessons", PyVal.int 10)]
    [("lessons_learned", PyVal.list []), ("run_count", PyVal.int 5)]
    [PyVal.str "l"] [] 10 5 rfl rfl (by decide) rfl⟩


/-! ## Claim C2 — recall filtering -/

/-- Claim C2 (amended: filtering happens exactly for truthy categories).
For stored lessons `ls` (all dicts, as `learn` produces), a truthy
category `C` yields exactly the order-preserving sublist whose
`.get("category")` is `==` to `C`; a falsy `C` — in particular the
`None` default of a no-argument call, but also `""`, `0`, `False` —
returns the full stored list unchanged; with nothing stored the result
is the empty list (`ls = []`), so recall never fails. -/
theorem c2_recall_filter (exp : PyDict) (ls : List PyVal) (C : PyVal)
    (hls : dictGetD exp "lessons_learned" (.list []) = .list ls)
    (hdicts : ls.all PyVal.isDict = true) :
    (C.truthy = true →
      Agent.recall exp C =
        some (.list (ls.filter fun l => pyEq (lessonGet l "category") C))) ∧
    (C.truthy = false → Agent.recall exp C = some (.list ls)) ∧
    Agent.recall exp PyVal.none = some (.list ls) := by
  refine ⟨?_, ?_, ?_⟩
  · intro hC
    simp [Agent.recall, hls, hC, hdicts]
  · intro hC
    simp [Agent.recall, hls, hC]
  · simp [Agent.recall, hls, PyVal.truthy]

/-- Claim C2, counterexample to the claim as stated: for the category
value `""` (falsy), `recall` returns the full list, not the sublist
whose category equals `""` (which is empty here). -/
theorem c2_counterexample :
    Agent.recall [("lessons_learned", PyVal.list [PyVal.dict [("category", PyVal.str "x")]])]
        (PyVal.str "") =
      some (PyVal.list [PyVal.dict [("category", PyVal.str "x")]]) ∧
    ([PyVal.dict [("category", PyVal.str "x")]].filter
        fun l => pyEq (lessonGet l "category") (PyVal.str "")) = [] ∧
    some (PyVal.list [PyVal.dict [("category", PyVal.str "x")]]) ≠
      some (PyVal.list ([] : List PyVal)) := by
  refine ⟨rfl, ?_, by simp⟩
  simp [List.filter, pyEq, lessonGet, dictGetD, dictGet]

/-- Claim C2, witness: a two-lesson store filtered by `"dead_url"`. -/
theorem c2_witness :
    (PyVal.str "dead_url").truthy = true ∧
    Agent.recall [("lessons_learned", PyVal.list
        [PyVal.dict [("category", PyVal.str "dead_url")],
         PyVal.dict [("category", PyVal.str "cms_quirk")]])] (PyVal.str "dead_url") =
      some (.list ([PyVal.dict [("category", PyVal.str "dead_url")],
         PyVal.dict [("category", PyVal.str "cms_quirk")]].filter
          fun l => pyEq (lessonGet l "category") (PyVal.str "dead_url"))) :=
  ⟨rfl, (c2_recall_filter
    [("lessons_learned", PyVal.list
        [PyVal.dict [("category", PyVal.str "dead_url")],
         PyVal.dict [("category", PyVal.str "cms_quirk")]])]
    [PyVal.dict [("category", PyVal.str "dead_url")],
     PyVal.dict [("category", PyVal.str "cms_quirk")]]
    (PyVal.str "dead_url") rfl rfl).1 rfl⟩

/-! ## Claims C3 and C10 — the shape-driven experience reset -/

lemma dictGet_resetExperience (exp : PyDict) (k : String) :
    dictGet (resetExperience exp) k = (dictGet exp k).map (resetValue k) := by
  induction exp with
  | nil => rfl
  | cons hd tl ih =>
      obtain ⟨k0, v0⟩ := hd
      simp only [resetExperience, List.map_cons, dictGet]
      by_cases h : k0 = k
      · subst h
        rw [if_pos rfl, if_pos rfl]
        rfl
      · rw [if_neg h, if_neg h]
        simpa [resetExperience] using ih

lemma resetValue_eq_spec (k : String) (v : PyVal) :
    resetValue k v = specResetValue k v := by
  by_cases h1 : k = "lessons_learned"
  · subst h1
    simp [resetValue, specResetValue]
  · by_cases h2 : k = "format_priority"
    · subst h2
      simp [resetValue, specResetValue]
    · cases v <;> simp [resetValue, specResetValue, h1, h2]

/-- Claim C3 (amended: a boolean is numeric to `isinstance`, so boolean
scalars reset to `0`, not `""`, and boolean dict values count as numeric
for zero-filling).  Looking up any key of a reset experience gives
exactly the spec-side shape mapping of the original value. -/
theorem c3_reset_shape (exp : PyDict) (k : String) :
    dictGet (resetExperience exp) k = (dictGet exp k).map (specResetValue k) := by
  rw [dictGet_resetExperience]
  cases dictGet exp k <;> simp [resetValue_eq_spec]

/-- Claim C3, counterexample to the claim as stated: a boolean resets to
`0` (not to `""` as claimed), and a mapping whose value is a boolean is
zero-filled (not emptied). -/
theorem c3_counterexample :
    resetExperience [("flag", PyVal.bool true), ("counts", PyVal.dict [("a", PyVal.bool true)])] =
      [("flag", PyVal.int 0), ("counts", PyVal.dict [("a", PyVal.int 0)])] ∧
    PyVal.int 0 ≠ PyVal.str "" ∧
    PyVal.dict [("a", PyVal.int 0)] ≠ PyVal.dict [] := by
  refine ⟨rfl, by simp, by simp⟩

lemma resetAgents_get (ags ags2 : List (String × PyVal))
    (h : resetAgents ags = some ags2) (w : String) :
    dictGet ags2 w = (dictGet ags w).bind resetAgent := by
  induction ags generalizing ags2 with
  | nil =>
      simp [resetAgents] at h
      subst h
      rfl
  | cons hd tl ih =>
      obtain ⟨k, v⟩ := hd
      simp only [resetAgents, Option.bind_eq_bind, Option.bind_eq_some, Option.pure_def,
        Option.some_inj] at h
      obtain ⟨v', hv', rest', hrest', rfl⟩ := h
      by_cases hk : k = w
      · subst hk
        simp [dictGet, hv']
      · simp [dictGet, hk, ih _ hrest']

lemma dictKeys_resetExperience (exp : PyDict) :
    dictKeys (resetExperience exp) = dictKeys exp := by
  simp [dictKeys, resetExperience]

lemma resetTeamExperience_elim (team t2 : PyDict)
    (h : resetTeamExperience team = some t2) :
    ∃ ags ags2, dictGet team "agents" = some (.dict ags) ∧
      resetAgents ags = some ags2 ∧ t2 = dictSet team "agents" (.dict ags2) := by
  unfold resetTeamExperience at h
  cases hg : dictGet team "agents" with
  | none => rw [hg] at h; exact absurd h (by simp)
  | some v =>
      rw [hg] at h
      cases v with
      | dict ags =>
          replace h : (resetAgents ags).bind
              (fun ags2 => some (dictSet team "agents" (PyVal.dict ags2))) = some t2 := h
          cases hr : resetAgents ags with
          | none => rw [hr] at h; cases h
          | some ags2 =>
              rw [hr] at h
              simp only [Option.some_bind, Option.some_inj] at h
              exact ⟨ags, ags2, rfl, hr, h.symm⟩
      | none => exact absurd h (by simp)
      | bool b => exact absurd h (by simp)
      | int n => exact absurd h (by simp)
      | float q => exact absurd h (by simp)
      | str s => exact absurd h (by simp)
      | list xs => exact absurd h (by simp)

/-- Claim C10: the experience reset run by `create_team` keeps the
exact key set (and order) of every worker's experience mapping; only
values change. -/
theorem c10_reset_preserves_keys (team t2 : PyDict) (ags : List (String × PyVal))
    (w : String) (std exp : PyDict)
    (hrun : resetTeamExperience team = some t2)
    (hags : dictGet team "agents" = some (.dict ags))
    (hw : dictGet ags w = some (.dict std))
    (hexp : dictGet std "experience" = some (.dict exp)) :
    ∃ ags2 exp2, dictGet t2 "agents" = some (.dict ags2) ∧
      dictGet ags2 w = some (.dict (dictSet std "experience" (.dict exp2))) ∧
      dictKeys exp2 = dictKeys exp := by
  obtain ⟨ags', ags2, hags', hra, rfl⟩ := resetTeamExperience_elim team t2 hrun
  rw [hags] at hags'
  obtain rfl : ags = ags' := by cases hags'; rfl
  refine ⟨ags2, resetExperience exp, dictGet_dictSet_self _ _ _, ?_, dictKeys_resetExperience exp⟩
  rw [resetAgents_get ags ags2 hra w, hw]
  simp [resetAgent, hexp]

/-- Claim C10, witness: a one-worker team with a two-key experience. -/
theorem c10_witness :
    resetTeamExperience [("agents", PyVal.dict [("scout", PyVal.dict
        [("role", PyVal.str "s"), ("experience", PyVal.dict
          [("lessons_learned", PyVal.list [PyVal.int 1]), ("score", PyVal.int 7)])])])] =
      some [("agents", PyVal.dict [("scout", PyVal.dict
        [("role", PyVal.str "s"), ("experience", PyVal.dict
          [("lessons_learned", PyVal.list []), ("score", PyVal.int 0)])])])] ∧
    (∃ ags2 exp2, dictGet [("agents", PyVal.dict [("scout", PyVal.dict
        [("role", PyVal.str "s"), ("experience", PyVal.dict
          [("lessons_learned", PyVal.list []), ("score", PyVal.int 0)])])])] "agents" =
        some (.dict ags2) ∧
      dictGet ags2 "scout" = some (.dict (dictSet
        [("role", PyVal.str "s"), ("experience", PyVal.dict
          [("lessons_learned", PyVal.list [PyVal.int 1]), ("score", PyVal.int 7)])]
        "experience" (.dict exp2))) ∧
      dictKeys exp2 = dictKeys [("lessons_learned", PyVal.list [PyVal.int 1]),
        ("score", PyVal.int 7)]) :=
  ⟨rfl, c10_reset_preserves_keys
    [("agents", PyVal.dict [("scout", PyVal.dict
        [("role", PyVal.str "s"), ("experience", PyVal.dict
          [("lessons_learned", PyVal.list [PyVal.int 1]), ("score", PyVal.int 7)])])])]
    [("agents", PyVal.dict [("scout", PyVal.dict
        [("role", PyVal.str "s"), ("experience", PyVal.dict
          [("lessons_learned", PyVal.list []), ("score", PyVal.int 0)])])])]
    [("scout", PyVal.dict
        [("role", PyVal.str "s"), ("experience", PyVal.dict
          [("lessons_learned", PyVal.list [PyVal.int 1]), ("score", PyVal.int 7)])])]
    "scout"
    [("role", PyVal.str "s"), ("experience", PyVal.dict
          [("lessons_learned", PyVal.list [PyVal.int 1]), ("score", PyVal.int 7)])]
    [("lessons_learned", PyVal.list [PyVal.int 1]), ("score", PyVal.int 7)]
    rfl rfl rfl rfl⟩


/-! ## Claims C4 and C5 — create_team -/

/-- Claim C5, evaluation at the failing input: cloning a source team
that has no `project_id` key stores `None` under `project_id` (the
conditional expression
`project_id if "project_id" in new_team else None` evaluates to `None`
when the key is absent), not the given new project id — while `created`
is set as claimed.  This contradicts the function's own docstring
("Updates: project_id, created date"). -/
theorem c5_project_id_bug :
    create_team [("agents", PyVal.dict [])] "haifa" "2026-10-12" [] [] =
      some [("agents", PyVal.dict []), ("project_id", PyVal.none),
            ("created", PyVal.str "2026-10-12")] ∧
    PyVal.none ≠ PyVal.str "haifa" := ⟨rfl, by simp⟩

lemma dictGet_dictUpdate_not_mem (meta : List (String × PyVal)) (k : String)
    (h : dictGet meta k = Option.none) :
    ∀ t : PyDict, dictGet (dictUpdate t meta) k = dictGet t k := by
  induction meta with
  | nil => intro t; rfl
  | cons hd tl ih =>
      obtain ⟨k0, v0⟩ := hd
      simp only [dictGet] at h
      by_cases h0 : k0 = k
      · rw [if_pos h0] at h; cases h
      · rw [if_neg h0] at h
        intro t
        simp only [dictUpdate]
        rw [ih h _, dictGet_dictSet_ne _ _ _ _ (fun hh => h0 hh.symm)]

lemma applyOverrides_spec (w : String) (ovs : List (String × PyVal)) :
    ∀ (t t2 : PyDict) (ags : List (String × PyVal)),
      applyOverrides t ovs = some t2 →
      (∀ ov ∈ ovs, ov.1 ≠ w) →
      dictGet t "agents" = some (.dict ags) →
      ∃ ags2, dictGet t2 "agents" = some (.dict ags2) ∧
        dictGet ags2 w = dictGet ags w ∧
        ∀ k, k ≠ "agents" → dictGet t2 k = dictGet t k := by
  induction ovs with
  | nil =>
      intro t t2 ags h hner hags
      obtain rfl : t = t2 := by simpa [applyOverrides] using h
      exact ⟨ags, hags, rfl, fun k _ => rfl⟩
  | cons hd rest ih =>
      obtain ⟨name, overrides⟩ := hd
      intro t t2 ags h hner hags
      have hname : name ≠ w := hner (name, overrides) (List.mem_cons_self _ _)
      have hner' : ∀ ov ∈ rest, ov.1 ≠ w := fun ov hov => hner ov (List.mem_cons_of_mem _ hov)
      unfold applyOverrides at h
      rw [hags] at h
      split at h
      · rename_i exp heq
        injection heq with heq1
        injection heq1 with heq2
        subst heq2
        split at h
        · rename_i agd heq2
          split at h
          · rename_i ovs2
            cases hao : applyOverride agd ovs2 with
            | none => rw [hao] at h; simp at h
            | some agd1 =>
                rw [hao] at h
                simp at h
                have hags1 : dictGet (dictSet t "agents"
                    (.dict (dictSet ags name (.dict agd1)))) "agents"
                    = some (.dict (dictSet ags name (.dict agd1))) :=
                  dictGet_dictSet_self _ _ _
                obtain ⟨ags2, h1, h2, h3⟩ := ih _ _ _ h hner' hags1
                refine ⟨ags2, h1, ?_, ?_⟩
                · rw [h2, dictGet_dictSet_ne _ _ _ _ (fun hh => hname hh.symm)]
                · intro k hk
                  rw [h3 k hk, dictGet_dictSet_ne _ _ _ _ hk]
          · simp at h
        · simp at h
        · simp at h
          exact ih _ _ _ h hner' hags
      · rename_i a hx
        exact (hx _ rfl).elim

lemma dictGet_prelude (source : PyDict) (x y z : PyVal) (meta : List (String × PyVal))
    (k : String) (hk1 : k ≠ "project_id") (hk2 : k ≠ "city") (hk3 : k ≠ "created")
    (hmk : dictGet meta k = Option.none) :
    dictGet (dictUpdate (dictSet
      (if hasKey (dictSet source "project_id" x) "city"
       then dictSet (dictSet source "project_id" x) "city" y
       else dictSet source "project_id" x) "created" z) meta) k = dictGet source k := by
  rw [dictGet_dictUpdate_not_mem _ _ hmk, dictGet_dictSet_ne _ _ _ _ hk3]
  split
  · rw [dictGet_dictSet_ne _ _ _ _ hk2, dictGet_dictSet_ne _ _ _ _ hk1]
  · rw [dictGet_dictSet_ne _ _ _ _ hk1]

/-- Claim C4: a successful clone preserves each non-overridden worker's
`role` and `config`, resets its `lessons_learned` to the empty sequence,
preserves the embedded-universal-knowledge key `format_priority` of its
experience, and preserves the top-level `universal_knowledge` verbatim
(`project_meta` not naming `agents`/`universal_knowledge`, as identity
metadata does not). -/
theorem c4_clone_preserves (source : PyDict) (pid today : String)
    (meta : PyDict) (ovrs : List (String × PyVal)) (t' : PyDict)
    (w : String) (ags : List (String × PyVal)) (std : PyDict) (rv cv : PyVal)
    (exp : PyDict)
    (hrun : create_team source pid today meta ovrs = some t')
    (hags : dictGet source "agents" = some (.dict ags))
    (hw : dictGet ags w = some (.dict std))
    (hrole : dictGet std "role" = some rv)
    (hcfg : dictGet std "config" = some cv)
    (hexp : dictGet std "experience" = some (.dict exp))
    (hll : hasKey exp "lessons_learned" = true)
    (hnov : ∀ ov ∈ ovrs, ov.1 ≠ w)
    (hma : dictGet meta "agents" = Option.none)
    (hmu : dictGet meta "universal_knowledge" = Option.none) :
    ∃ ags2 std2 exp2,
      dictGet t' "agents" = some (.dict ags2) ∧
      dictGet ags2 w = some (.dict std2) ∧
      dictGet std2 "role" = some rv ∧
      dictGet std2 "config" = some cv ∧
      dictGet std2 "experience" = some (.dict exp2) ∧
      dictGet exp2 "lessons_learned" = some (.list []) ∧
      dictGet exp2 "format_priority" = dictGet exp "format_priority" ∧
      dictGet t' "universal_knowledge" = dictGet source "universal_knowledge" := by
  simp only [create_team, Option.bind_eq_bind, Option.bind_eq_some] at hrun
  obtain ⟨t5, hov, hreset⟩ := hrun
  have hag4 := dictGet_prelude source
    (if hasKey source "project_id" then PyVal.str pid else PyVal.none)
    (.str pid) (.str today) meta "agents" (by decide) (by decide) (by decide) hma
  obtain ⟨ags5, h5a, h5w, h5k⟩ := applyOverrides_spec w ovrs _ t5 ags hov hnov
    (by rw [hag4]; exact hags)
  obtain ⟨agsA, agsB, hA, hB, rfl⟩ := resetTeamExperience_elim t5 t' hreset
  rw [h5a] at hA
  injection hA with hA1
  injection hA1 with hA2
  subst hA2
  refine ⟨agsB, dictSet std "experience" (.dict (resetExperience exp)), resetExperience exp,
    dictGet_dictSet_self _ _ _, ?_, ?_, ?_, ?_, ?_, ?_, ?_⟩
  · rw [resetAgents_get _ _ hB w, h5w, hw]
    simp [resetAgent, hexp]
  · rw [dictGet_dictSet_ne _ _ _ _ (by decide)]
    exact hrole
  · rw [dictGet_dictSet_ne _ _ _ _ (by decide)]
    exact hcfg
  · exact dictGet_dictSet_self _ _ _
  · rw [dictGet_resetExperience]
    obtain ⟨v, hv⟩ := Option.isSome_iff_exists.mp hll
    rw [hv]
    simp [resetValue]
  · rw [dictGet_resetExperience]
    cases dictGet exp "format_priority" <;> simp [resetValue]
  · rw [dictGet_dictSet_ne _ _ _ _ (by decide), h5k _ (by decide),
      dictGet_prelude source
        (if hasKey source "project_id" then PyVal.str pid else PyVal.none)
        (.str pid) (.str today) meta "universal_knowledge"
        (by decide) (by decide) (by decide) hmu]

/-- Claim C4, witness: a one-worker team with universal knowledge, an
embedded `format_priority` and a learned lesson, cloned with no
overrides. -/
theorem c4_witness :
    create_team
      [("universal_knowledge", PyVal.str "U"), ("agents", PyVal.dict
        [("scout", PyVal.dict [("role", PyVal.str "scout"), ("config", PyVal.dict []),
          ("experience", PyVal.dict [("lessons_learned", PyVal.list [PyVal.int 3]),
            ("format_priority", PyVal.str "fp"), ("score", PyVal.int 7)])])])]
      "p1" "2026-01-01" [] [] =
      some [("universal_knowledge", PyVal.str "U"), ("agents", PyVal.dict
        [("scout", PyVal.dict [("role", PyVal.str "scout"), ("config", PyVal.dict []),
          ("experience", PyVal.dict [("lessons_learned", PyVal.list []),
            ("format_priority", PyVal.str "fp"), ("score", PyVal.int 0)])])]),
        ("project_id", PyVal.none), ("created", PyVal.str "2026-01-01")] ∧
    (∃ ags2 std2 exp2,
      dictGet [("universal_knowledge", PyVal.str "U"), ("agents", PyVal.dict
        [("scout", PyVal.dict [("role", PyVal.str "scout"), ("config", PyVal.dict []),
          ("experience", PyVal.dict [("lessons_learned", PyVal.list []),
            ("format_priority", PyVal.str "fp"), ("score", PyVal.int 0)])])]),
        ("project_id", PyVal.none), ("created", PyVal.str "2026-01-01")] "agents" =
        some (.dict ags2) ∧
      dictGet ags2 "scout" = some (.dict std2) ∧
      dictGet std2 "role" = some (PyVal.str "scout") ∧
      dictGet std2 "config" = some (PyVal.dict []) ∧
      dictGet std2 "experience" = some (.dict exp2) ∧
      dictGet exp2 "lessons_learned" = some (.list []) ∧
      dictGet exp2 "format_priority" =
        dictGet [("lessons_learned", PyVal.list [PyVal.int 3]),
          ("format_priority", PyVal.str "fp"), ("score", PyVal.int 7)] "format_priority" ∧
      dictGet [("universal_knowledge", PyVal.str "U"), ("agents", PyVal.dict
        [("scout", PyVal.dict [("role", PyVal.str "scout"), ("config", PyVal.dict []),
          ("experience", PyVal.dict [("lessons_learned", PyVal.list []),
            ("format_priority", PyVal.str "fp"), ("score", PyVal.int 0)])])]),
        ("project_id", PyVal.none), ("created", PyVal.str "2026-01-01")]
        "universal_knowledge" =
        dictGet [("universal_knowledge", PyVal.str "U"), ("agents", PyVal.dict
        [("scout", PyVal.dict [("role", PyVal.str "scout"), ("config", PyVal.dict []),
          ("experience", PyVal.dict [("lessons_learned", PyVal.list [PyVal.int 3]),
            ("format_priority", PyVal.str "fp"), ("score", PyVal.int 7)])])])]
        "universal_knowledge") :=
  ⟨rfl, c4_clone_preserves
    [("universal_knowledge", PyVal.str "U"), ("agents", PyVal.dict
        [("scout", PyVal.dict [("role", PyVal.str "scout"), ("config", PyVal.dict []),
          ("experience", PyVal.dict [("lessons_learned", PyVal.list [PyVal.int 3]),
            ("format_priority", PyVal.str "fp"), ("score", PyVal.int 7)])])])]
    "p1" "2026-01-01" [] []
    [("universal_knowledge", PyVal.str "U"), ("agents", PyVal.dict
        [("scout", PyVal.dict [("role", PyVal.str "scout"), ("config", PyVal.dict []),
          ("experience", PyVal.dict [("lessons_learned", PyVal.list []),
            ("format_priority", PyVal.str "fp"), ("score", PyVal.int 0)])])]),
        ("project_id", PyVal.none), ("created", PyVal.str "2026-01-01")]
    "scout"
    [("scout", PyVal.dict [("role", PyVal.str "scout"), ("config", PyVal.dict []),
          ("experience", PyVal.dict [("lessons_learned", PyVal.list [PyVal.int 3]),
            ("format_priority", PyVal.str "fp"), ("score", PyVal.int 7)])])]
    [("role", PyVal.str "scout"), ("config", PyVal.dict []),
          ("experience", PyVal.dict [("lessons_learned", PyVal.list [PyVal.int 3]),
            ("format_priority", PyVal.str "fp"), ("score", PyVal.int 7)])]
    (PyVal.str "scout") (PyVal.dict [])
    [("lessons_learned", PyVal.list [PyVal.int 3]),
            ("format_priority", PyVal.str "fp"), ("score", PyVal.int 7)]
    rfl rfl rfl rfl rfl rfl rfl (by simp) rfl rfl⟩


/-! ## Claims C6, C7 and C9 — phase gating in `DbArchitectAgent.run` -/

/-- Claim C7, evaluation at the failing input: a well-formed worker with
no pending dependency runs successfully and returns the `"ready"`
result, yet its persisted experience contains neither `status` nor
`completed_at` — no `run()` in the module ever calls `_mark_complete`
(the helper that would set them, shown setting `status` in the last
conjunct), so the completion signal the next phase polls for is never
written. -/
theorem c7_no_status_set :
    dbArchitectRun [("agents", PyVal.dict [("db_architect", PyVal.dict
      [("role", PyVal.str "db"), ("config", PyVal.dict []),
       ("experience", PyVal.dict [])])])] "db_architect" =
      some ⟨PyVal.dict [("status", PyVal.str "ready"),
              ("db_functions", PyVal.dict []), ("auditor_lessons", PyVal.list [])],
            [("agents", PyVal.dict [("db_architect", PyVal.dict
              [("role", PyVal.str "db"), ("config", PyVal.dict []),
               ("experience", PyVal.dict [("lessons_learned", PyVal.list []),
                 ("run_count", PyVal.int 1)])])])]⟩ ∧
    dictGet [("lessons_learned", PyVal.list []), ("run_count", PyVal.int 1)] "status" =
      Option.none ∧
    dictGet [("lessons_learned", PyVal.list []), ("run_count", PyVal.int 1)]
      "completed_at" = Option.none ∧
    dictGet (markComplete [("lessons_learned", PyVal.list []), ("run_count", PyVal.int 1)]
      "2026-10-12T00:00:00") "status" = some (PyVal.str "complete") :=
  ⟨rfl, rfl, rfl, rfl⟩

/-- Claim C6, counterexample to the claim as stated: a worker whose
`depends_on` names the worker `""` (present, `status` `"wip"`, not
complete) is NOT blocked — `_check_dependency` guards with `if dep:`
and the empty string is falsy — so `run()` proceeds, returns `"ready"`
and mutates its own experience. -/
theorem c6_counterexample :
    dbArchitectRun
      [("agents", PyVal.dict [
        ("", PyVal.dict [("role", PyVal.str "x"), ("config", PyVal.dict []),
          ("experience", PyVal.dict [("status", PyVal.str "wip")])]),
        ("db_architect", PyVal.dict [("role", PyVal.str "db"),
          ("config", PyVal.dict [("depends_on", PyVal.str "")]),
          ("experience", PyVal.dict [])])])] "db_architect" =
      some ⟨PyVal.dict [("status", PyVal.str "ready"), ("db_functions", PyVal.dict []),
          ("auditor_lessons", PyVal.list [])],
        [("agents", PyVal.dict [
          ("", PyVal.dict [("role", PyVal.str "x"), ("config", PyVal.dict []),
            ("experience", PyVal.dict [("status", PyVal.str "wip")])]),
          ("db_architect", PyVal.dict [("role", PyVal.str "db"),
            ("config", PyVal.dict [("depends_on", PyVal.str "")]),
            ("experience", PyVal.dict [("lessons_learned", PyVal.list []),
              ("run_count", PyVal.int 1)])])])]⟩ ∧
    pyEq (dictGetD [("status", PyVal.str "wip")] "status" PyVal.none)
      (PyVal.str "complete") = false ∧
    PyVal.str "ready" ≠ PyVal.str "blocked" :=
  ⟨rfl, by simp [pyEq, dictGetD, dictGet], by simp⟩

/-- Claim C6 (amended: for a non-empty dependency name): when `config`
declares a non-empty `depends_on` naming a worker whose
`experience.get("status")` is not `==` `"complete"`, `run()` returns the
blocked result dict with the blocking reason and the team document —
including the invoking worker's own experience — is returned completely
unchanged: no mutation, no `save_state`. -/
theorem c6_dependency_gating (team : PyDict) (name : String)
    (agents : List (String × PyVal)) (std config : PyDict) (rv ev : PyVal)
    (d : String) (depd depExp : PyDict)
    (h1 : dictGet team "agents" = some (.dict agents))
    (h2 : dictGet agents name = some (.dict std))
    (h3 : dictGet std "role" = some rv)
    (h4 : dictGet std "config" = some (.dict config))
    (h5 : dictGet std "experience" = some ev)
    (h6 : dictGet config "depends_on" = some (.str d))
    (hd : d ≠ "")
    (h7 : dictGet agents d = some (.dict depd))
    (h8 : dictGet depd "experience" = some (.dict depExp))
    (h9 : pyEq (dictGetD depExp "status" PyVal.none) (.str "complete") = false) :
    dbArchitectRun team name =
      some ⟨.dict [("status", .str "blocked"),
                   ("reason", .str ("depends on " ++ d))], team⟩ := by
  have hdep : dictGetD config "depends_on" PyVal.none = .str d := by
    simp [dictGetD, h6]
  have htr : (PyVal.str d).truthy = true := by
    simp [PyVal.truthy, hd]
  have hchk : checkDependency team config = some false := by
    simp [checkDependency, hdep, htr, h1, h7, h8, h9]
  simp [dbArchitectRun, h1, h2, h3, h4, h5, hchk, h6]

/-- Claim C6, witness: `db_architect` depends on `auditor`, which has
no `status` yet; the run blocks and the team is untouched. -/
theorem c6_witness :
    ("auditor" : String) ≠ "" ∧
    dbArchitectRun
      [("agents", PyVal.dict [
        ("auditor", PyVal.dict [("role", PyVal.str "a"), ("config", PyVal.dict []),
          ("experience", PyVal.dict [])]),
        ("db_architect", PyVal.dict [("role", PyVal.str "db"),
          ("config", PyVal.dict [("depends_on", PyVal.str "auditor")]),
          ("experience", PyVal.dict [("x", PyVal.int 1)])])])] "db_architect" =
      some ⟨.dict [("status", .str "blocked"),
                   ("reason", .str ("depends on " ++ "auditor"))],
        [("agents", PyVal.dict [
          ("auditor", PyVal.dict [("role", PyVal.str "a"), ("config", PyVal.dict []),
            ("experience", PyVal.dict [])]),
          ("db_architect", PyVal.dict [("role", PyVal.str "db"),
            ("config", PyVal.dict [("depends_on", PyVal.str "auditor")]),
            ("experience", PyVal.dict [("x", PyVal.int 1)])])])]⟩ :=
  ⟨by decide, c6_dependency_gating
    [("agents", PyVal.dict [
        ("auditor", PyVal.dict [("role", PyVal.str "a"), ("config", PyVal.dict []),
          ("experience", PyVal.dict [])]),
        ("db_architect", PyVal.dict [("role", PyVal.str "db"),
          ("config", PyVal.dict [("depends_on", PyVal.str "auditor")]),
          ("experience", PyVal.dict [("x", PyVal.int 1)])])])]
    "db_architect"
    [("auditor", PyVal.dict [("role", PyVal.str "a"), ("config", PyVal.dict []),
          ("experience", PyVal.dict [])]),
     ("db_architect", PyVal.dict [("role", PyVal.str "db"),
          ("config", PyVal.dict [("depends_on", PyVal.str "auditor")]),
          ("experience", PyVal.dict [("x", PyVal.int 1)])])]
    [("role", PyVal.str "db"),
     ("config", PyVal.dict [("depends_on", PyVal.str "auditor")]),
     ("experience", PyVal.dict [("x", PyVal.int 1)])]
    [("depends_on", PyVal.str "auditor")]
    (PyVal.str "db") (PyVal.dict [("x", PyVal.int 1)])
    "auditor"
    [("role", PyVal.str "a"), ("config", PyVal.dict []),
      ("experience", PyVal.dict [])]
    []
    rfl rfl rfl rfl rfl rfl (by decide) rfl rfl
    (by simp [pyEq, PyVal.asNum, dictGetD, dictGet])⟩

/-- Claim C9: when `depends_on` names a worker entirely absent from
`document.agents`, the dependency check passes (`dep in agents` fails,
so the guard body is skipped) and `run()` proceeds to do its work and
call `save_state`, returning `"ready"` with `run_count` bumped — the
blocking guard applies only when the named predecessor exists. -/
theorem c9_absent_dependency_runs (team : PyDict) (name : String)
    (agents : List (String × PyVal)) (std config exp : PyDict) (rv : PyVal)
    (d : String) (aud aexp : List (String × PyVal)) (ls : List PyVal) (M r : Int)
    (h1 : dictGet team "agents" = some (.dict agents))
    (h2 : dictGet agents name = some (.dict std))
    (h3 : dictGet std "role" = some rv)
    (h4 : dictGet std "config" = some (.dict config))
    (h5 : dictGet std "experience" = some (.dict exp))
    (h6 : dictGet config "depends_on" = some (.str d))
    (h7 : dictGet agents d = Option.none)
    (h8 : dictGetD config "recall_types" (.list []) = .list [])
    (h9 : dictGetD agents "auditor" (.dict []) = .dict aud)
    (h10 : dictGetD aud "experience" (.dict []) = .dict aexp)
    (h11 : dictGetD aexp "function_index" (.dict []) = .dict [])
    (h12 : dictGet exp "lessons_learned" = some (.list ls))
    (h13 : dictGetD config "max_lessons" (.int 100) = .int M)
    (hM : 1 ≤ M)
    (h14 : dictGetD exp "run_count" (.int 0) = .int r) :
    checkDependency team config = some true ∧
    ∃ o : RunOutcome, dbArchitectRun team name = some o ∧
      pyItem o.result "status" = some (.str "ready") ∧
      ∃ agents1 std1 exp1,
        dictGet o.team "agents" = some (.dict agents1) ∧
        dictGet agents1 name = some (.dict std1) ∧
        dictGet std1 "experience" = some (.dict exp1) ∧
        dictGetD exp1 "run_count" (.int 0) = .int (r + 1) := by
  have hdep : dictGetD config "depends_on" PyVal.none = .str d := by
    simp [dictGetD, h6]
  have hchk : checkDependency team config = some true := by
    by_cases hd : d = ""
    · subst hd
      simp [checkDependency, hdep, PyVal.truthy]
    · have htr : (PyVal.str d).truthy = true := by simp [PyVal.truthy, hd]
      simp [checkDependency, hdep, htr, h1, h7]
  have hrbt : recallByTypes team config = some [] := by
    simp [recallByTypes, h8]
  have hax : applyExperienceDb team config = some () := by
    simp [applyExperienceDb, hrbt]
  have hsave := save_state_eq PyVal.none config exp [] ls M r h12 h13 hM h14
  rw [List.append_nil] at hsave
  refine ⟨hchk, ?_⟩
  refine ⟨⟨.dict [("status", .str "ready"), ("db_functions", .dict []),
      ("auditor_lessons", .list [])],
    dictSet team "agents" (.dict (dictSet agents name (.dict (dictSet std "experience"
      (.dict (dictSet (dictSet exp "lessons_learned" (.list (takeLast M.toNat ls)))
        "run_count" (.int (r + 1))))))))⟩, ?_, ?_, ?_⟩
  · have hrbt1 : recallByTypes (dictSet team "agents" (.dict (dictSet agents name
        (.dict (dictSet std "experience"
          (.dict (dictSet (dictSet exp "lessons_learned" (.list (takeLast M.toNat ls)))
            "run_count" (.int (r + 1))))))))) config = some [] := by
      simp [recallByTypes, h8]
    simp [dbArchitectRun, h1, h2, h3, h4, h5, hchk, hax, h9, h10, h11, pyGetD,
      dbFunctionsOf, hsave, hrbt1]
  · rfl
  · refine ⟨_, _, _, dictGet_dictSet_self _ _ _, dictGet_dictSet_self _ _ _,
      dictGet_dictSet_self _ _ _, ?_⟩
    simp [dictGetD, dictGet_dictSet_self]

/-- Claim C9, witness: a team whose only worker depends on the absent
`"ghost"`. -/
theorem c9_witness :
    dictGet [("db_architect", PyVal.dict
      [("role", PyVal.str "db"),
       ("config", PyVal.dict [("depends_on", PyVal.str "ghost")]),
       ("experience", PyVal.dict [("lessons_learned", PyVal.list [])])])] "ghost" =
      Option.none ∧
    (checkDependency [("agents", PyVal.dict [("db_architect", PyVal.dict
      [("role", PyVal.str "db"),
       ("config", PyVal.dict [("depends_on", PyVal.str "ghost")]),
       ("experience", PyVal.dict [("lessons_learned", PyVal.list [])])])])]
      [("depends_on", PyVal.str "ghost")] = some true ∧
    ∃ o : RunOutcome, dbArchitectRun [("agents", PyVal.dict [("db_architect", PyVal.dict
      [("role", PyVal.str "db"),
       ("config", PyVal.dict [("depends_on", PyVal.str "ghost")]),
       ("experience", PyVal.dict [("lessons_learned", PyVal.list [])])])])]
        "db_architect" = some o ∧
      pyItem o.result "status" = some (.str "ready") ∧
      ∃ agents1 std1 exp1,
        dictGet o.team "agents" = some (.dict agents1) ∧
        dictGet agents1 "db_architect" = some (.dict std1) ∧
        dictGet std1 "experience" = some (.dict exp1) ∧
        dictGetD exp1 "run_count" (.int 0) = .int (0 + 1)) :=
  ⟨rfl, c9_absent_dependency_runs
    [("agents", PyVal.dict [("db_architect", PyVal.dict
      [("role", PyVal.str "db"),
       ("config", PyVal.dict [("depends_on", PyVal.str "ghost")]),
       ("experience", PyVal.dict [("lessons_learned", PyVal.list [])])])])]
    "db_architect"
    [("db_architect", PyVal.dict
      [("role", PyVal.str "db"),
       ("config", PyVal.dict [("depends_on", PyVal.str "ghost")]),
       ("experience", PyVal.dict [("lessons_learned", PyVal.list [])])])]
    [("role", PyVal.str "db"),
     ("config", PyVal.dict [("depends_on", PyVal.str "ghost")]),
     ("experience", PyVal.dict [("lessons_learned", PyVal.list [])])]
    [("depends_on", PyVal.str "ghost")]
    [("lessons_learned", PyVal.list [])]
    (PyVal.str "db") "ghost" [] [] [] 100 0
    rfl rfl rfl rfl rfl rfl rfl rfl rfl rfl rfl rfl rfl (by decide) rfl⟩

end PersistentTeam
